import Mathlib

/-!
A shallow embedding of the notes REST API implemented in `src/serveur.js`
and `src/modeleNote.js` (Node/Express/Mongoose/Joi), together with proofs
about the behaviour of its endpoints.

Modelling conventions:
- A Mongo store is a `List Note` in natural (insertion) order; `_id` is an
  opaque `String`, `dateAjout` a millisecond timestamp (`Nat`).
- Request bodies parsed by `express.json()` are association lists of keys
  to JSON scalar values.
- `Date.now()` and the ObjectId generated by Mongo are passed to handlers
  as explicit `now` / `freshId` arguments.
- Exceptions thrown by a handler (for instance a Mongoose CastError on a
  malformed id) reach the error middleware of serveur.js lines 144-147,
  which answers 500; the embedding returns that 500 response directly.
-/

namespace NotesApi

/-- A JSON scalar value as it can appear in a request body. -/
inductive JVal where
  | jstr (s : String)
  | jnum (n : Int)
  deriving DecidableEq

/-- A JSON object body: association list from keys to values. -/
abbrev JBody := List (String × JVal)

/-- The Mongoose Note document of `src/modeleNote.js`: declared fields
`titre`, `contenu`, `dateAjout`, plus the `_id` the store assigns. -/
structure Note where
  id : String
  titre : String
  contenu : String
  dateAjout : Nat
  deriving DecidableEq

/-- The field names declared by `noteSchema` in `src/modeleNote.js`. -/
def noteSchemaFields : List String := ["titre", "contenu", "dateAjout"]

/-- One key of `noteSchemaJoi`: `Joi.string().min(lo).max(hi).required()`.
Returns the first violated constraint message, or `none` when the value
passes. -/
def fieldError (name : String) (lo hi : Nat) (v : Option JVal) : Option String :=
  match v with
  | none => some ("\"" ++ name ++ "\" is required")
  | some (JVal.jnum _) => some ("\"" ++ name ++ "\" must be a string")
  | some (JVal.jstr s) =>
    if s.length = 0 then some ("\"" ++ name ++ "\" is not allowed to be empty")
    else if s.length < lo then
      some ("\"" ++ name ++ "\" length must be at least " ++ toString lo
        ++ " characters long")
    else if s.length > hi then
      some ("\"" ++ name ++ "\" length must be less than or equal to "
        ++ toString hi ++ " characters long")
    else none

/-- Joi rejects keys that are not declared in the object schema. -/
def unknownKeyError (body : JBody) : Option String :=
  match (body.map Prod.fst).find? (fun k => k != "titre" && k != "contenu") with
  | some k => some ("\"" ++ k ++ "\" is not allowed")
  | none => none

/-- `noteSchemaJoi.validate(req.body)` (serveur.js lines 4-7): abort-early
validation checking `titre`, then `contenu`, then unknown keys; returns
the first violated constraint message, or `none` when the body is valid. -/
def joiValidate (body : JBody) : Option String :=
  match fieldError "titre" 2 100 (body.lookup "titre") with
  | some m => some m
  | none =>
    match fieldError "contenu" 2 1000 (body.lookup "contenu") with
    | some m => some m
    | none => unknownKeyError body

/-- Mongoose casts a string to an ObjectId when it is 24 hexadecimal
characters, or a 12-character string; any other string makes the cast
throw a CastError. -/
def wellFormedId (s : String) : Bool :=
  (s.length = 24 && s.toList.all (fun c =>
      c.isDigit || (c ≥ 'a' && c ≤ 'f') || (c ≥ 'A' && c ≤ 'F')))
    || s.length = 12

/-- The CastError message Mongoose raises on a malformed id, forwarded by
the error middleware as the `details` field of the 500 envelope. -/
def castErrorMessage (id : String) : String :=
  "Cast to ObjectId failed for value \"" ++ id
    ++ "\" (type string) at path \"_id\" for model \"Note\""

/-- The JSON response bodies the server can produce. -/
inductive Body where
  | note (n : Note)
  | noteList (ns : List Note)
  | paginated (page : Int) (totalPages totalNotes : Nat) (notes : List Note)
  | msg (m : String)
  | msgNote (m : String) (n : Note)
  | msgUrl (m url : String)
  | erreur (m : String)
  | erreurDetails (m d : String)
  | errorEn (m : String)
  deriving DecidableEq

/-- An HTTP response paired with the store after the request. -/
structure Resp where
  status : Nat
  body : Body
  store : List Note
  deriving DecidableEq

/-- Destructuring `const { titre, contenu } = req.body` for one key
(used only after successful validation, which guarantees a string). -/
def getStr (body : JBody) (k : String) : String :=
  match body.lookup k with
  | some (JVal.jstr s) => s
  | _ => ""

/-- First stored note with the given `_id` (Mongo id lookup). -/
def findNote (id : String) (store : List Note) : Option Note :=
  store.find? (fun n => n.id == id)

/-- `findByIdAndUpdate`: replace `titre`/`contenu` on the first matching
note, leaving `_id` and `dateAjout` as stored. -/
def updateFirst (id t c : String) : List Note → List Note
  | [] => []
  | n :: rest =>
    if n.id == id then (⟨n.id, t, c, n.dateAjout⟩ : Note) :: rest
    else n :: updateFirst id t c rest

/-- `findByIdAndDelete`: remove the first matching note. -/
def removeFirst (id : String) : List Note → List Note
  | [] => []
  | n :: rest => if n.id == id then rest else n :: removeFirst id rest

/-- POST /notes handler (serveur.js lines 70-83). -/
def createNote (body : JBody) (now : Nat) (freshId : String)
    (store : List Note) : Resp :=
  match joiValidate body with
  | some m => ⟨400, Body.erreur m, store⟩
  | none =>
    let n : Note := ⟨freshId, getStr body "titre", getStr body "contenu", now⟩
    ⟨201, Body.note n, store ++ [n]⟩

/-- GET /notes, first registered handler (serveur.js lines 86-93):
returns every note as a bare JSON array. -/
def listAllNotes (store : List Note) : Resp :=
  ⟨200, Body.noteList store, store⟩

/-- GET /notes/:id handler (serveur.js lines 96-106). A malformed id makes
`findById` throw a CastError; `next(err)` routes it to the 500 middleware
(lines 144-147). -/
def getNoteById (id : String) (store : List Note) : Resp :=
  if wellFormedId id then
    match findNote id store with
    | some n => ⟨200, Body.note n, store⟩
    | none => ⟨404, Body.erreur "Note non trouvée.", store⟩
  else
    ⟨500, Body.erreurDetails "Erreur serveur" (castErrorMessage id), store⟩

/-- PUT /notes/:id handler (serveur.js lines 109-128): Joi validation
first, then `findByIdAndUpdate` with `new: true`. -/
def updateNote (id : String) (body : JBody) (store : List Note) : Resp :=
  match joiValidate body with
  | some m => ⟨400, Body.erreur m, store⟩
  | none =>
    if wellFormedId id then
      match findNote id store with
      | some n =>
        ⟨200,
          Body.msgNote "Note modifiée avec succès"
            ⟨n.id, getStr body "titre", getStr body "contenu", n.dateAjout⟩,
          updateFirst id (getStr body "titre") (getStr body "contenu") store⟩
      | none => ⟨404, Body.erreur "Note non trouvée.", store⟩
    else ⟨500, Body.erreurDetails "Erreur serveur" (castErrorMessage id), store⟩

/-- DELETE /notes/:id handler (serveur.js lines 131-141). -/
def deleteNote (id : String) (store : List Note) : Resp :=
  if wellFormedId id then
    match findNote id store with
    | some _ => ⟨200, Body.msg "Note supprimée avec succès", removeFirst id store⟩
    | none => ⟨404, Body.erreur "Note non trouvée.", store⟩
  else ⟨500, Body.erreurDetails "Erreur serveur" (castErrorMessage id), store⟩

/-- The file object multer attaches to the request. -/
structure UploadedFile where
  originalname : String
  deriving DecidableEq

/-- Multer filename callback (serveur.js lines 31-33):
`Date.now() + '-' + file.originalname`. -/
def uploadFilename (now : Nat) (originalname : String) : String :=
  toString now ++ "-" ++ originalname

/-- POST /upload handler (serveur.js lines 60-67). -/
def uploadFile (file : Option UploadedFile) (protocol host : String)
    (now : Nat) (store : List Note) : Resp :=
  match file with
  | none => ⟨400, Body.erreur "Aucun fichier envoyé.", store⟩
  | some f =>
    ⟨201,
      Body.msgUrl "Fichier uploadé avec succès"
        (protocol ++ "://" ++ host ++ "/uploads/" ++ uploadFilename now f.originalname),
      store⟩

/-- Digits of a decimal numeral to a number. -/
def digitsToNat (cs : List Char) : Nat :=
  cs.foldl (fun a c => a * 10 + (c.toNat - 48)) 0

/-- JavaScript `parseInt` on a query string: optional minus sign followed
by the longest digit run; `none` models NaN. -/
def jsParseInt (s : String) : Option Int :=
  match s.toList with
  | '-' :: rest =>
    let ds := rest.takeWhile Char.isDigit
    if ds.isEmpty then none else some (-(digitsToNat ds : Int))
  | cs =>
    let ds := cs.takeWhile Char.isDigit
    if ds.isEmpty then none else some ((digitsToNat ds : Int))

/-- `parseInt(q) || d`: both NaN and 0 are falsy, so they fall back to d. -/
def intOrDefault (q : Option String) (d : Int) : Int :=
  match q.bind jsParseInt with
  | none => d
  | some n => if n = 0 then d else n

/-- `req.query.sortBy || 'date'`: the empty string is also falsy. -/
def sortByOrDefault (q : Option String) : String :=
  match q with
  | none => "date"
  | some s => if s = "" then "date" else s

/-- A BSON-comparable field value of a stored note document. -/
inductive BVal where
  | num (n : Nat)
  | str (s : String)
  deriving DecidableEq

/-- The value a Mongo sort key reads off a stored note; `none` models a
field that is absent from the document. -/
def getField (n : Note) (f : String) : Option BVal :=
  if f = "_id" then some (BVal.str n.id)
  else if f = "titre" then some (BVal.str n.titre)
  else if f = "contenu" then some (BVal.str n.contenu)
  else if f = "dateAjout" then some (BVal.num n.dateAjout)
  else none

/-- BSON type rank: missing/null sorts before numbers, numbers before
strings. -/
def bvalRank : Option BVal → Nat
  | none => 0
  | some (BVal.num _) => 1
  | some (BVal.str _) => 2

/-- BSON comparison of two possibly-missing field values. -/
def bvalLe (a b : Option BVal) : Bool :=
  match a, b with
  | some (BVal.num x), some (BVal.num y) => x ≤ y
  | some (BVal.str x), some (BVal.str y) => x ≤ y
  | _, _ => bvalRank a ≤ bvalRank b

/-- Whether note a may stay before note b in a sort by field f with
direction dir (1 ascending, -1 descending); ties keep natural order,
matching the store-natural tie-break described for the paginated query. -/
def sortKeeps (f : String) (dir : Int) (a b : Note) : Bool :=
  if dir = 1 then bvalLe (getField a f) (getField b f)
  else bvalLe (getField b f) (getField a f)

/-- Stable insertion used by the sort of the paginated query. -/
def insertSorted (f : String) (dir : Int) (a : Note) : List Note → List Note
  | [] => [a]
  | b :: rest =>
    if sortKeeps f dir a b then a :: b :: rest
    else b :: insertSorted f dir a rest

/-- `.sort({ [sortBy]: sortOrder })`: stable sort of the store by one
field. -/
def mongoSort (f : String) (dir : Int) : List Note → List Note
  | [] => []
  | a :: rest => insertSorted f dir a (mongoSort f dir rest)

/-- `Math.ceil(a / b)` on the non-negative operands the handler feeds it. -/
def mathCeilDiv (a b : Nat) : Nat := (a + b - 1) / b

/-- The second, shadowed GET /notes handler (serveur.js lines 159-183):
pagination and sorting. A negative skip or limit is rejected by MongoDB,
which lands in the catch branch answering 500 with an `error` body. -/
def listNotesPaginated (qpage qlimit qsortBy qorder : Option String)
    (store : List Note) : Resp :=
  let page := intOrDefault qpage 1
  let limit := intOrDefault qlimit 10
  let sortBy := sortByOrDefault qsortBy
  let sortOrder : Int := if qorder = some "asc" then 1 else -1
  let skip := (page - 1) * limit
  if skip < 0 ∨ limit < 0 then
    ⟨500, Body.errorEn "Erreur lors de la récupération des notes.", store⟩
  else
    ⟨200,
      Body.paginated page (mathCeilDiv store.length limit.toNat) store.length
        (((mongoSort sortBy sortOrder store).drop skip.toNat).take limit.toNat),
      store⟩

/-- The handlers serveur.js binds, in registration order. -/
inductive HandlerTag where
  | uploadRoute | createRoute | listAllRoute | getOneRoute | updateRoute
  | deleteRoute | unknownRoute | paginatedRoute
  deriving DecidableEq

/-- HTTP methods used by the API. -/
inductive Method where
  | get | post | put | delete
  deriving DecidableEq

/-- A route pattern: a fixed path, the `/notes/:id` shape, or the
catch-all of an `app.use` middleware. -/
inductive Pattern where
  | exactPath (segs : List String)
  | notesIdPath
  | anyPath
  deriving DecidableEq

/-- Whether a pattern matches a request path (split into segments). -/
def patternMatches : Pattern → List String → Bool
  | Pattern.exactPath segs, p => segs == p
  | Pattern.notesIdPath, p =>
    match p with
    | [a, _] => a == "notes"
    | _ => false
  | Pattern.anyPath, _ => true

/-- The route table of serveur.js in source order: note that the
catch-all 404 middleware (line 150) is registered before the paginated
GET /notes handler (line 159), and a plain GET /notes (line 86) before
both. A method of `none` matches every method (`app.use`). -/
def routeTable : List (Option Method × Pattern × HandlerTag) :=
  [ (some Method.post, Pattern.exactPath ["upload"], HandlerTag.uploadRoute),
    (some Method.post, Pattern.exactPath ["notes"], HandlerTag.createRoute),
    (some Method.get, Pattern.exactPath ["notes"], HandlerTag.listAllRoute),
    (some Method.get, Pattern.notesIdPath, HandlerTag.getOneRoute),
    (some Method.put, Pattern.notesIdPath, HandlerTag.updateRoute),
    (some Method.delete, Pattern.notesIdPath, HandlerTag.deleteRoute),
    (none, Pattern.anyPath, HandlerTag.unknownRoute),
    (some Method.get, Pattern.exactPath ["notes"], HandlerTag.paginatedRoute) ]

/-- Express dispatch: the first registered route whose method and pattern
match the request wins. -/
def dispatch (m : Method) (path : List String) : Option HandlerTag :=
  (routeTable.find? (fun r =>
      (match r.1 with | none => true | some mm => mm == m)
        && patternMatches r.2.1 path)).map (fun r => r.2.2)

/-- An inbound HTTP request as the handlers consume it. -/
structure Request where
  method : Method
  path : List String
  body : JBody
  qpage : Option String
  qlimit : Option String
  qsortBy : Option String
  qorder : Option String
  file : Option UploadedFile
  protocol : String
  host : String

/-- The `:id` parameter of a `/notes/:id` path. -/
def idParam (path : List String) : String :=
  match path with
  | [_, id] => id
  | _ => ""

/-- The whole server: dispatch the request to the first matching route of
the table and run that handler. -/
def serve (r : Request) (now : Nat) (freshId : String)
    (store : List Note) : Resp :=
  match dispatch r.method r.path with
  | some HandlerTag.uploadRoute => uploadFile r.file r.protocol r.host now store
  | some HandlerTag.createRoute => createNote r.body now freshId store
  | some HandlerTag.listAllRoute => listAllNotes store
  | some HandlerTag.getOneRoute => getNoteById (idParam r.path) store
  | some HandlerTag.updateRoute => updateNote (idParam r.path) r.body store
  | some HandlerTag.deleteRoute => deleteNote (idParam r.path) store
  | some HandlerTag.paginatedRoute =>
    listNotesPaginated r.qpage r.qlimit r.qsortBy r.qorder store
  | some HandlerTag.unknownRoute => ⟨404, Body.erreur "Route inconnue", store⟩
  | none => ⟨404, Body.erreur "Route inconnue", store⟩

/-- Premise of the out-of-bounds claim: the title (titre) or content
(contenu) field is missing, or is a string whose length falls outside its
allowed range. -/
def violatesBounds (body : JBody) : Prop :=
  body.lookup "titre" = none ∨
  (∃ s, body.lookup "titre" = some (JVal.jstr s) ∧ (s.length < 2 ∨ s.length > 100)) ∨
  body.lookup "contenu" = none ∨
  (∃ s, body.lookup "contenu" = some (JVal.jstr s) ∧ (s.length < 2 ∨ s.length > 1000))

/-- Premise of the exact-keys claim: the body has both schema keys and no
other key. -/
def exactKeys (body : JBody) : Prop :=
  "titre" ∈ body.map Prod.fst ∧ "contenu" ∈ body.map Prod.fst ∧
    ∀ k ∈ body.map Prod.fst, k = "titre" ∨ k = "contenu"

/-- Inversion of one Joi key check: it passes exactly on a non-empty
string whose length lies in the declared range. -/
theorem fieldError_none_iff (name : String) (lo hi : Nat) (v : Option JVal) :
    fieldError name lo hi v = none ↔
      ∃ s, v = some (JVal.jstr s) ∧ s.length ≠ 0 ∧ lo ≤ s.length ∧ s.length ≤ hi := by
  cases v with
  | none => simp [fieldError]
  | some jv =>
    cases jv with
    | jnum n => simp [fieldError]
    | jstr s =>
      simp only [fieldError, Option.some.injEq, JVal.jstr.injEq]
      constructor
      · intro h
        by_cases h0 : s.length = 0
        · rw [if_pos h0] at h; exact absurd h (by simp)
        rw [if_neg h0] at h
        by_cases h1 : s.length < lo
        · rw [if_pos h1] at h; exact absurd h (by simp)
        rw [if_neg h1] at h
        by_cases h2 : s.length > hi
        · rw [if_pos h2] at h; exact absurd h (by simp)
        exact ⟨s, rfl, h0, by omega, by omega⟩
      · rintro ⟨t, ht, hne, hlo, hhi⟩
        subst ht
        rw [if_neg hne, if_neg (by omega), if_neg (by omega)]

/-- A key that `List.lookup` resolves occurs among the keys of the list. -/
theorem lookup_mem_keys (body : JBody) {k : String} {v : JVal}
    (h : body.lookup k = some v) : k ∈ body.map Prod.fst := by
  induction body with
  | nil => cases h
  | cons p rest ih =>
    obtain ⟨k1, v1⟩ := p
    rw [List.lookup] at h
    by_cases e : (k == k1) = true
    · have : k = k1 := by simpa using e
      simp [this]
    · have e2 : (k == k1) = false := by simpa using e
      rw [e2] at h
      simp only [List.map, List.mem_cons]
      exact Or.inr (ih h)

/-- Inversion of a successful Joi validation: both declared keys are
present with in-range string values and no other key occurs. -/
theorem joiValidate_none (body : JBody) (h : joiValidate body = none) :
    (∃ s, body.lookup "titre" = some (JVal.jstr s) ∧
        s.length ≠ 0 ∧ 2 ≤ s.length ∧ s.length ≤ 100) ∧
    (∃ s, body.lookup "contenu" = some (JVal.jstr s) ∧
        s.length ≠ 0 ∧ 2 ≤ s.length ∧ s.length ≤ 1000) ∧
    ∀ k ∈ body.map Prod.fst, k = "titre" ∨ k = "contenu" := by
  unfold joiValidate at h
  cases h1 : fieldError "titre" 2 100 (body.lookup "titre") with
  | some m => rw [h1] at h; simp at h
  | none =>
    rw [h1] at h
    cases h2 : fieldError "contenu" 2 1000 (body.lookup "contenu") with
    | some m => rw [h2] at h; simp at h
    | none =>
      rw [h2] at h
      refine ⟨(fieldError_none_iff _ _ _ _).mp h1,
        (fieldError_none_iff _ _ _ _).mp h2, ?_⟩
      unfold unknownKeyError at h
      cases h3 : (body.map Prod.fst).find? (fun k => k != "titre" && k != "contenu") with
      | some k => rw [h3] at h; simp at h
      | none =>
        intro k hk
        have hnp := List.find?_eq_none.mp h3 k hk
        by_cases e1 : k = "titre"
        · exact Or.inl e1
        by_cases e2 : k = "contenu"
        · exact Or.inr e2
        exact absurd (by simp [e1, e2]) hnp

/-- Stable insertion adds one element. -/
theorem insertSorted_length (f : String) (dir : Int) (a : Note) (l : List Note) :
    (insertSorted f dir a l).length = l.length + 1 := by
  induction l with
  | nil => rfl
  | cons b rest ih =>
    simp only [insertSorted]
    split
    · simp
    · simp [ih]

/-- The sort of the paginated query permutes the store, so it keeps its
length. -/
theorem mongoSort_length (f : String) (dir : Int) (l : List Note) :
    (mongoSort f dir l).length = l.length := by
  induction l with
  | nil => rfl
  | cons a rest ih => simp [mongoSort, insertSorted_length, ih]

/-- No stored note document carries a field named `date`. -/
theorem getField_date (n : Note) : getField n "date" = none := by
  unfold getField
  rw [if_neg (by decide), if_neg (by decide), if_neg (by decide), if_neg (by decide)]

/-- Sorting on the absent `date` field compares every pair as a tie. -/
theorem sortKeeps_date (dir : Int) (a b : Note) : sortKeeps "date" dir a b = true := by
  unfold sortKeeps
  rw [getField_date, getField_date]
  split <;> rfl

/-- Inserting under an all-ties comparison keeps the element in front. -/
theorem insertSorted_date (dir : Int) (a : Note) (l : List Note) :
    insertSorted "date" dir a l = a :: l := by
  cases l with
  | nil => rfl
  | cons b rest => simp [insertSorted, sortKeeps_date]

/-- Sorting the store on the absent `date` field leaves it in natural
order. -/
theorem mongoSort_date_eq (dir : Int) (l : List Note) :
    mongoSort "date" dir l = l := by
  induction l with
  | nil => rfl
  | cons a rest ih => rw [mongoSort, ih, insertSorted_date]

/-- A successful id lookup splits the store around the first match, and
describes what update and delete do to that split. -/
theorem findNote_split (id : String) (store : List Note) (n : Note)
    (hf : findNote id store = some n) :
    n.id = id ∧ ∃ pre post, store = pre ++ n :: post ∧ (∀ x ∈ pre, x.id ≠ id) ∧
      (∀ t c, updateFirst id t c store =
        pre ++ (⟨n.id, t, c, n.dateAjout⟩ : Note) :: post) ∧
      removeFirst id store = pre ++ post := by
  induction store with
  | nil => cases hf
  | cons a rest ih =>
    by_cases ha : (a.id == id) = true
    · simp only [findNote, List.find?, ha, Option.some.injEq] at hf
      subst hf
      refine ⟨by simpa using ha, [], rest, rfl, by simp, ?_, ?_⟩
      · intro t c; simp [updateFirst, ha]
      · simp [removeFirst, ha]
    · have ha2 : (a.id == id) = false := by simpa using ha
      simp only [findNote, List.find?, ha2] at hf
      obtain ⟨hid, pre, post, hsplit, hpre, hupd, hrem⟩ :=
        ih (show findNote id rest = some n from hf)
      have hane : a.id ≠ id := by simpa using ha
      refine ⟨hid, a :: pre, post, by simp [hsplit], ?_, ?_, ?_⟩
      · intro x hx
        rcases List.mem_cons.mp hx with rfl | hmem
        · exact hane
        · exact hpre x hmem
      · intro t c
        simp only [updateFirst, if_neg ha, List.cons_append]
        rw [hupd t c]
      · simp only [removeFirst, if_neg ha, List.cons_append]
        rw [hrem]

/-- When the stored ids are distinct, an id found and removed is gone. -/
theorem findNote_removeFirst (id : String) (store : List Note) (n : Note)
    (hnd : (store.map Note.id).Nodup) (hf : findNote id store = some n) :
    findNote id (removeFirst id store) = none := by
  obtain ⟨hid, pre, post, hsplit, hpre, -, hrem⟩ := findNote_split id store n hf
  rw [hrem]
  apply List.find?_eq_none.mpr
  intro x hx
  simp only [List.mem_append] at hx
  rcases hx with hx | hx
  · simpa using hpre x hx
  · subst hsplit
    simp only [List.map_append, List.map_cons] at hnd
    have hpost : n.id ∉ post.map Note.id :=
      (List.nodup_cons.mp (hnd.of_append_right)).1
    have : x.id ≠ n.id := by
      intro e
      exact hpost (e ▸ List.mem_map_of_mem Note.id hx)
    simpa [hid] using this

/-- The catch-all middleware registered on line 150 of serveur.js matches
every request, so dispatch can never select the paginated handler that is
registered after it (line 159). -/
theorem dispatch_ne_paginated (m : Method) (p : List String) :
    dispatch m p ≠ some HandlerTag.paginatedRoute := by
  unfold dispatch routeTable
  simp only [List.find?]
  repeat' split
  all_goals simp_all [patternMatches]

/-- C1 (corrected): the behaviour reachable at GET /notes is the first
registered handler, which answers 200 with the bare array of all stored
notes; the paginated handler is shadowed and unreachable for every
request. -/
theorem getNotes_reachable_is_listAll (r : Request) (now : Nat) (freshId : String)
    (store : List Note) (hm : r.method = Method.get) (hp : r.path = ["notes"]) :
    serve r now freshId store = ⟨200, Body.noteList store, store⟩ ∧
    ∀ m p, dispatch m p ≠ some HandlerTag.paginatedRoute := by
  refine ⟨?_, dispatch_ne_paginated⟩
  unfold serve
  rw [hm, hp]
  rfl

/-- Witness of the corrected C1 statement at a concrete request. -/
theorem getNotes_reachable_is_listAll_witness :
    serve ⟨Method.get, ["notes"], [], none, none, none, none, none, "http", "localhost"⟩
        0 "x" [] = ⟨200, Body.noteList [], []⟩ ∧
    ∀ m p, dispatch m p ≠ some HandlerTag.paginatedRoute :=
  getNotes_reachable_is_listAll
    ⟨Method.get, ["notes"], [], none, none, none, none, none, "http", "localhost"⟩
    0 "x" [] rfl rfl

/-- C1 (counterexample): a GET /notes request is answered with a bare
note array, not with a body of the paginated shape. -/
theorem getNotes_response_not_paginated_shape :
    serve ⟨Method.get, ["notes"], [], none, none, none, none, none, "http", "localhost"⟩
        0 "x" [] = ⟨200, Body.noteList [], []⟩ ∧
    ¬ ∃ page totalPages totalNotes notes,
        (serve ⟨Method.get, ["notes"], [], none, none, none, none, none, "http", "localhost"⟩
          0 "x" []).body = Body.paginated page totalPages totalNotes notes := by
  refine ⟨rfl, ?_⟩
  rintro ⟨a, b, c, d, h⟩
  rw [show (serve ⟨Method.get, ["notes"], [], none, none, none, none, none, "http",
      "localhost"⟩ 0 "x" []).body = Body.noteList [] from rfl] at h
  cases h

/-- C2 (counterexample): fetching a malformed id such as `abc` is not
answered 404; the CastError reaches the error middleware, which answers
500. -/
theorem getById_malformed_is_500_not_404 :
    (serve ⟨Method.get, ["notes", "abc"], [], none, none, none, none, none, "http",
        "localhost"⟩ 0 "x" []).status = 500 ∧
    (serve ⟨Method.get, ["notes", "abc"], [], none, none, none, none, none, "http",
        "localhost"⟩ 0 "x" []).status ≠ 404 :=
  ⟨rfl, by decide⟩

/-- C2 (amended): a malformed id makes GET /notes/:id answer 500 with the
server-error envelope carrying the CastError message, while a well-formed
id that matches no stored note is answered 404 with the fixed not-found
message. -/
theorem getById_malformed_500_wellformed_missing_404 (id : String) (store : List Note) :
    (wellFormedId id = false →
      getNoteById id store =
        ⟨500, Body.erreurDetails "Erreur serveur" (castErrorMessage id), store⟩) ∧
    (wellFormedId id = true → findNote id store = none →
      getNoteById id store = ⟨404, Body.erreur "Note non trouvée.", store⟩) := by
  constructor
  · intro h
    simp [getNoteById, h]
  · intro h hf
    simp [getNoteById, h, hf]

/-- Witness of the amended C2 statement at concrete ids. -/
theorem getById_malformed_500_witness :
    getNoteById "abc" [] =
      ⟨500, Body.erreurDetails "Erreur serveur" (castErrorMessage "abc"), []⟩ ∧
    getNoteById "aaaaaaaaaaaaaaaaaaaaaaaa" [] =
      ⟨404, Body.erreur "Note non trouvée.", []⟩ :=
  ⟨(getById_malformed_500_wellformed_missing_404 "abc" []).1 (by decide),
   (getById_malformed_500_wellformed_missing_404 "aaaaaaaaaaaaaaaaaaaaaaaa" []).2
     (by decide) rfl⟩

/-- C3: any create or update payload whose title or content is missing or
has length outside [2,100] / [2,1000] fails validation; both endpoints
answer 400 carrying the validation message and leave the store unchanged,
and when the violated constraint is on titre the reported message is the
one computed for titre (the first key checked). -/
theorem create_update_reject_out_of_bounds (body : JBody) (now : Nat)
    (freshId id : String) (store : List Note) (h : violatesBounds body) :
    ∃ m, joiValidate body = some m ∧
      createNote body now freshId store = ⟨400, Body.erreur m, store⟩ ∧
      updateNote id body store = ⟨400, Body.erreur m, store⟩ ∧
      (∀ tm, fieldError "titre" 2 100 (body.lookup "titre") = some tm → m = tm) := by
  cases hv : joiValidate body with
  | some m =>
    refine ⟨m, rfl, by simp [createNote, hv], by simp [updateNote, hv], ?_⟩
    intro tm htm
    unfold joiValidate at hv
    rw [htm] at hv
    injection hv with hv
    exact hv.symm
  | none =>
    exfalso
    obtain ⟨⟨s1, hs1, h10, h12, h1100⟩, ⟨s2, hs2, h20, h22, h21000⟩, -⟩ :=
      joiValidate_none body hv
    rcases h with h | ⟨s, hs, hlen⟩ | h | ⟨s, hs, hlen⟩
    · rw [h] at hs1; cases hs1
    · rw [hs] at hs1
      obtain rfl : s = s1 := by injection hs1 with e; injection e
      omega
    · rw [h] at hs2; cases hs2
    · rw [hs] at hs2
      obtain rfl : s = s2 := by injection hs2 with e; injection e
      omega

/-- Witness of C3 at a concrete under-length titre. -/
theorem create_update_reject_out_of_bounds_witness :
    ∃ m, joiValidate [("titre", JVal.jstr "a"), ("contenu", JVal.jstr "ab")] = some m ∧
      createNote [("titre", JVal.jstr "a"), ("contenu", JVal.jstr "ab")] 0 "f" [] =
        ⟨400, Body.erreur m, []⟩ ∧
      updateNote "aaaaaaaaaaaaaaaaaaaaaaaa"
          [("titre", JVal.jstr "a"), ("contenu", JVal.jstr "ab")] [] =
        ⟨400, Body.erreur m, []⟩ ∧
      (∀ tm, fieldError "titre" 2 100
          ([("titre", JVal.jstr "a"), ("contenu", JVal.jstr "ab")].lookup "titre") =
            some tm → m = tm) :=
  create_update_reject_out_of_bounds
    [("titre", JVal.jstr "a"), ("contenu", JVal.jstr "ab")] 0 "f"
    "aaaaaaaaaaaaaaaaaaaaaaaa" []
    (Or.inr (Or.inl ⟨"a", by decide, Or.inl (by decide)⟩))

/-- C4: with page=1 and limit=5, the paginated handler reports the store
size as totalNotes, the ceiling of totalNotes/5 as totalPages, and a notes
array of length min 5 totalNotes, for any sortBy and order parameters. -/
theorem paginated_page1_limit5 (store : List Note) (qsortBy qorder : Option String) :
    ∃ notes totalPages,
      listNotesPaginated (some "1") (some "5") qsortBy qorder store =
        ⟨200, Body.paginated 1 totalPages store.length notes, store⟩ ∧
      notes.length = min 5 store.length ∧
      store.length ≤ 5 * totalPages ∧ 5 * totalPages < store.length + 5 := by
  have hp : intOrDefault (some "1") 1 = 1 := by decide
  have hl : intOrDefault (some "5") 10 = 5 := by decide
  refine ⟨((mongoSort (sortByOrDefault qsortBy) (if qorder = some "asc" then 1 else -1)
      store).drop 0).take 5, mathCeilDiv store.length 5, ?_, ?_, ?_, ?_⟩
  · simp only [listNotesPaginated, hp, hl]
    norm_num
    exact ⟨rfl, rfl⟩
  · simp [mongoSort_length]
  · unfold mathCeilDiv
    omega
  · unfold mathCeilDiv
    omega

/-- C5: a successful update replaces only titre and contenu of the
matched note; its id and dateAjout are unchanged, and every other stored
note keeps its place and value. -/
theorem update_preserves_id_dateAjout (id : String) (body : JBody)
    (store : List Note) (n : Note)
    (hv : joiValidate body = none) (hw : wellFormedId id = true)
    (hf : findNote id store = some n) :
    ∃ pre post,
      store = pre ++ n :: post ∧ (∀ x ∈ pre, x.id ≠ id) ∧
      updateNote id body store =
        ⟨200,
          Body.msgNote "Note modifiée avec succès"
            ⟨n.id, getStr body "titre", getStr body "contenu", n.dateAjout⟩,
          pre ++ (⟨n.id, getStr body "titre", getStr body "contenu",
            n.dateAjout⟩ : Note) :: post⟩ := by
  obtain ⟨hid, pre, post, hsplit, hpre, hupd, -⟩ := findNote_split id store n hf
  refine ⟨pre, post, hsplit, hpre, ?_⟩
  simp only [updateNote, hv, hw, hf, if_true]
  rw [hupd]

/-- Witness of C5 on a concrete two-note store. -/
theorem update_preserves_id_dateAjout_witness :
    ∃ pre post,
      [(⟨"bbbbbbbbbbbbbbbbbbbbbbbb", "t1", "c1", 1⟩ : Note),
       ⟨"aaaaaaaaaaaaaaaaaaaaaaaa", "t2", "c2", 2⟩] = pre ++
        (⟨"aaaaaaaaaaaaaaaaaaaaaaaa", "t2", "c2", 2⟩ : Note) :: post ∧
      (∀ x ∈ pre, x.id ≠ "aaaaaaaaaaaaaaaaaaaaaaaa") ∧
      updateNote "aaaaaaaaaaaaaaaaaaaaaaaa"
          [("titre", JVal.jstr "nouveau"), ("contenu", JVal.jstr "nouveau contenu")]
          [⟨"bbbbbbbbbbbbbbbbbbbbbbbb", "t1", "c1", 1⟩,
           ⟨"aaaaaaaaaaaaaaaaaaaaaaaa", "t2", "c2", 2⟩] =
        ⟨200,
          Body.msgNote "Note modifiée avec succès"
            ⟨"aaaaaaaaaaaaaaaaaaaaaaaa",
              getStr [("titre", JVal.jstr "nouveau"),
                ("contenu", JVal.jstr "nouveau contenu")] "titre",
              getStr [("titre", JVal.jstr "nouveau"),
                ("contenu", JVal.jstr "nouveau contenu")] "contenu", 2⟩,
          pre ++ (⟨"aaaaaaaaaaaaaaaaaaaaaaaa",
            getStr [("titre", JVal.jstr "nouveau"),
              ("contenu", JVal.jstr "nouveau contenu")] "titre",
            getStr [("titre", JVal.jstr "nouveau"),
              ("contenu", JVal.jstr "nouveau contenu")] "contenu", 2⟩ : Note) :: post⟩ :=
  update_preserves_id_dateAjout "aaaaaaaaaaaaaaaaaaaaaaaa"
    [("titre", JVal.jstr "nouveau"), ("contenu", JVal.jstr "nouveau contenu")]
    [⟨"bbbbbbbbbbbbbbbbbbbbbbbb", "t1", "c1", 1⟩,
     ⟨"aaaaaaaaaaaaaaaaaaaaaaaa", "t2", "c2", 2⟩]
    ⟨"aaaaaaaaaaaaaaaaaaaaaaaa", "t2", "c2", 2⟩
    (by decide) (by decide) (by decide)

/-- C6: when the stored ids are distinct, deleting a stored note succeeds
with 200 and a subsequent fetch of the same id is answered 404 with the
fixed not-found message. -/
theorem delete_then_get_404 (id : String) (store : List Note) (n : Note)
    (hw : wellFormedId id = true) (hnd : (store.map Note.id).Nodup)
    (hf : findNote id store = some n) :
    deleteNote id store =
      ⟨200, Body.msg "Note supprimée avec succès", removeFirst id store⟩ ∧
    getNoteById id (removeFirst id store) =
      ⟨404, Body.erreur "Note non trouvée.", removeFirst id store⟩ := by
  constructor
  · simp [deleteNote, hw, hf]
  · have hnone := findNote_removeFirst id store n hnd hf
    simp [getNoteById, hw, hnone]

/-- Witness of C6 on a concrete one-note store. -/
theorem delete_then_get_404_witness :
    deleteNote "aaaaaaaaaaaaaaaaaaaaaaaa"
        [(⟨"aaaaaaaaaaaaaaaaaaaaaaaa", "t1", "c1", 0⟩ : Note)] =
      ⟨200, Body.msg "Note supprimée avec succès",
        removeFirst "aaaaaaaaaaaaaaaaaaaaaaaa"
          [⟨"aaaaaaaaaaaaaaaaaaaaaaaa", "t1", "c1", 0⟩]⟩ ∧
    getNoteById "aaaaaaaaaaaaaaaaaaaaaaaa"
        (removeFirst "aaaaaaaaaaaaaaaaaaaaaaaa"
          [⟨"aaaaaaaaaaaaaaaaaaaaaaaa", "t1", "c1", 0⟩]) =
      ⟨404, Body.erreur "Note non trouvée.",
        removeFirst "aaaaaaaaaaaaaaaaaaaaaaaa"
          [⟨"aaaaaaaaaaaaaaaaaaaaaaaa", "t1", "c1", 0⟩]⟩ :=
  delete_then_get_404 "aaaaaaaaaaaaaaaaaaaaaaaa"
    [⟨"aaaaaaaaaaaaaaaaaaaaaaaa", "t1", "c1", 0⟩]
    ⟨"aaaaaaaaaaaaaaaaaaaaaaaa", "t1", "c1", 0⟩
    (by decide) (by decide) (by decide)

/-- C7: with a file present, the stored filename is the request-time
millisecond timestamp, a hyphen, then the original filename, and the 201
response carries a URL built from the request scheme and host that ends
in that filename; without a file the endpoint answers 400. -/
theorem upload_filename_and_url (f : UploadedFile) (protocol host : String)
    (now : Nat) (store : List Note) :
    uploadFilename now f.originalname = toString now ++ "-" ++ f.originalname ∧
    (∃ u, uploadFile (some f) protocol host now store =
        ⟨201, Body.msgUrl "Fichier uploadé avec succès" u, store⟩ ∧
      ∃ pre, u = pre ++ uploadFilename now f.originalname) ∧
    uploadFile none protocol host now store =
      ⟨400, Body.erreur "Aucun fichier envoyé.", store⟩ :=
  ⟨rfl,
    ⟨protocol ++ "://" ++ host ++ "/uploads/" ++ uploadFilename now f.originalname,
      rfl, ⟨protocol ++ "://" ++ host ++ "/uploads/", rfl⟩⟩,
    rfl⟩

/-- C8 (counterexample): a POST /notes body written with the keys `title`
and `content` fails Joi validation (the schema keys are `titre` and
`contenu`), so the endpoint answers 400, not 201, and stores nothing. -/
theorem create_english_keys_rejected :
    createNote [("title", JVal.jstr "Maths"), ("content", JVal.jstr "Calcul integral")]
        0 "aaaaaaaaaaaaaaaaaaaaaaaa" [] =
      ⟨400, Body.erreur "\"titre\" is required", []⟩ ∧
    (createNote [("title", JVal.jstr "Maths"), ("content", JVal.jstr "Calcul integral")]
        0 "aaaaaaaaaaaaaaaaaaaaaaaa" []).status ≠ 201 :=
  ⟨rfl, by decide⟩

/-- C8 (amended): a POST /notes body with the schema keys, titre "Maths"
and contenu "Calcul integral", is answered 201 with the generated id, the
same two values and the creation timestamp, and the note is appended to
the store. -/
theorem create_maths_note (now : Nat) (freshId : String) (store : List Note) :
    createNote [("titre", JVal.jstr "Maths"), ("contenu", JVal.jstr "Calcul integral")]
        now freshId store =
      ⟨201, Body.note ⟨freshId, "Maths", "Calcul integral", now⟩,
        store ++ [⟨freshId, "Maths", "Calcul integral", now⟩]⟩ := by
  have hv : joiValidate
      [("titre", JVal.jstr "Maths"), ("contenu", JVal.jstr "Calcul integral")] = none := by
    decide
  have ht : getStr
      [("titre", JVal.jstr "Maths"), ("contenu", JVal.jstr "Calcul integral")] "titre" =
      "Maths" := by decide
  have hc : getStr
      [("titre", JVal.jstr "Maths"), ("contenu", JVal.jstr "Calcul integral")] "contenu" =
      "Calcul integral" := by decide
  simp only [createNote, hv, ht, hc]

/-- C9: without a sortBy query parameter the paginated handler sorts on
the key `date`, which is not a field of the note schema (its only
timestamp field is `dateAjout`), every document misses it, so the listing
comes back in natural store order; on a concrete store that order is
sorted neither ascending nor descending by dateAjout. -/
theorem default_sort_key_not_a_schema_field :
    sortByOrDefault none = "date" ∧
    "date" ∉ noteSchemaFields ∧
    (∀ n : Note, getField n "date" = none) ∧
    (∀ dir : Int, ∀ store : List Note, mongoSort "date" dir store = store) ∧
    (∃ store : List Note,
      listNotesPaginated none none none none store =
        ⟨200, Body.paginated 1 1 3 store, store⟩ ∧
      ¬ store.Chain' (fun a b => a.dateAjout ≤ b.dateAjout) ∧
      ¬ store.Chain' (fun a b => b.dateAjout ≤ a.dateAjout)) := by
  refine ⟨rfl, by decide, getField_date, mongoSort_date_eq, ?_⟩
  refine ⟨[⟨"a", "t1", "c1", 5⟩, ⟨"b", "t2", "c2", 9⟩, ⟨"c", "t3", "c3", 7⟩],
    ?_, ?_, ?_⟩
  · decide
  · norm_num [List.chain'_cons]
  · norm_num [List.chain'_cons]

/-- C10: any create or update body whose key set is not exactly titre and
contenu — a body using title/content, or one with an extra key — fails
validation, and both endpoints answer 400 without touching the store. -/
theorem nonexact_keys_rejected (body : JBody) (now : Nat) (freshId id : String)
    (store : List Note) (h : ¬ exactKeys body) :
    ∃ m, joiValidate body = some m ∧
      createNote body now freshId store = ⟨400, Body.erreur m, store⟩ ∧
      updateNote id body store = ⟨400, Body.erreur m, store⟩ := by
  cases hv : joiValidate body with
  | some m => exact ⟨m, rfl, by simp [createNote, hv], by simp [updateNote, hv]⟩
  | none =>
    exfalso
    obtain ⟨⟨s1, hs1, -, -, -⟩, ⟨s2, hs2, -, -, -⟩, hk⟩ := joiValidate_none body hv
    exact h ⟨lookup_mem_keys body hs1, lookup_mem_keys body hs2, hk⟩

/-- Witness of C10 at the English-keyed body. -/
theorem nonexact_keys_rejected_witness :
    ∃ m, joiValidate
        [("title", JVal.jstr "Maths"), ("content", JVal.jstr "Calcul integral")] =
        some m ∧
      createNote [("title", JVal.jstr "Maths"), ("content", JVal.jstr "Calcul integral")]
          0 "f" [] = ⟨400, Body.erreur m, []⟩ ∧
      updateNote "aaaaaaaaaaaaaaaaaaaaaaaa"
          [("title", JVal.jstr "Maths"), ("content", JVal.jstr "Calcul integral")] [] =
        ⟨400, Body.erreur m, []⟩ :=
  nonexact_keys_rejected
    [("title", JVal.jstr "Maths"), ("content", JVal.jstr "Calcul integral")]
    0 "f" "aaaaaaaaaaaaaaaaaaaaaaaa" [] (by simp [exactKeys])

end NotesApi
